import Mathlib

/-!
Shallow embedding of the `mafs` 3D math library (Rust sources
`src/basic_types.rs` and `src/matrix.rs`) and verification of its
specification.

The Rust library is generic over a scalar type `T` constrained by trait
bounds (`Add`, `Sub`, `Mul`, `Div`, `MulAssign`, `Sqrt`, `PartialOrd`,
`f32: Into<T>`, `f64: Into<T>`); the intended instantiations are `f32`
and `f64`.  The embedding mirrors the generic code with typeclass
parameters, and instantiates the scalar with `ℚ` (an exact stand-in for
the float scalars) for the algebraic claims, and with `FNum`
(rationals extended with an absorbing NaN element) for the claim about
NaN behaviour of `normalize`.
-/

namespace Mafs

/-- The `Sqrt` trait of `basic_types.rs`: `fn sqrt(&self) -> Self`. -/
class Sqrt (T : Type) where
  sqrt : T → T

/-- The `f32: Into<T>` / `f64: Into<T>` bounds of `basic_types.rs` are
used only to convert the float literals `0.0` and `1.0` into the scalar
type (in `normalize`); this class records those two converted literals. -/
class FloatLit (T : Type) where
  lit0 : T
  lit1 : T

instance : Sqrt ℚ := ⟨Rat.sqrt⟩

instance : FloatLit ℚ := ⟨0, 1⟩

/-- `Vec3<T>` from `basic_types.rs`: three named components. -/
structure Vec3 (T : Type) where
  x : T
  y : T
  z : T
deriving DecidableEq, Repr

/-- `Point3<T>` from `basic_types.rs`: same representation as `Vec3`,
distinguished at the type level. -/
structure Point3 (T : Type) where
  x : T
  y : T
  z : T
deriving DecidableEq, Repr

variable {T : Type}

/-- `Vec3::new` (`Tuple::new` impl). -/
def Vec3.new (x y z : T) : Vec3 T := ⟨x, y, z⟩

/-- `Vec3::zeros` (`Tuple::zeros` impl): `Default::default()`, i.e. all
components are the scalar's zero value. -/
def Vec3.zeros [Zero T] : Vec3 T := ⟨0, 0, 0⟩

/-- `Point3::new`. -/
def Point3.new (x y z : T) : Point3 T := ⟨x, y, z⟩

/-- `Point3::zeros`. -/
def Point3.zeros [Zero T] : Point3 T := ⟨0, 0, 0⟩

/-- `Vec3::dot`: `lhs.x * rhs.x + lhs.y * rhs.y + lhs.z * rhs.z`. -/
def Vec3.dot [Add T] [Mul T] (lhs rhs : Vec3 T) : T :=
  lhs.x * rhs.x + lhs.y * rhs.y + lhs.z * rhs.z

/-- `Vec3::cross`: the right-handed cross product component formula. -/
def Vec3.cross [Add T] [Mul T] [Sub T] (v other : Vec3 T) : Vec3 T :=
  Vec3.new
    (v.y * other.z - v.z * other.y)
    (v.z * other.x - v.x * other.z)
    (v.x * other.y - v.y * other.x)

/-- `Vec3::magnitude`: `sqrt(x*x + y*y + z*z)`. -/
def Vec3.magnitude [Add T] [Mul T] [Sqrt T] (v : Vec3 T) : T :=
  Sqrt.sqrt (v.x * v.x + v.y * v.y + v.z * v.z)

/-- `Point3::distance_from_origin`: same formula as `Vec3::magnitude`. -/
def Point3.distance_from_origin [Add T] [Mul T] [Sqrt T] (p : Point3 T) : T :=
  Sqrt.sqrt (p.x * p.x + p.y * p.y + p.z * p.z)

/-- `Vec3::normalize` (in-place in Rust; modelled as a function from the
old value to the new one): computes the magnitude, and when
`len > 0.0.into()` multiplies each component by `inv_len = 1.0.into() / len`;
otherwise the vector is left unchanged. -/
def Vec3.normalize [Add T] [Mul T] [Div T] [Sqrt T] [LT T]
    [DecidableRel (fun a b : T => a < b)] [FloatLit T] (v : Vec3 T) : Vec3 T :=
  let len := v.magnitude
  if FloatLit.lit0 < len then
    let inv_len := FloatLit.lit1 / len
    ⟨v.x * inv_len, v.y * inv_len, v.z * inv_len⟩
  else
    v

/-- `Point3::normalize`: identical to `Vec3::normalize` but with
`distance_from_origin` as the divisor. -/
def Point3.normalize [Add T] [Mul T] [Div T] [Sqrt T] [LT T]
    [DecidableRel (fun a b : T => a < b)] [FloatLit T] (p : Point3 T) : Point3 T :=
  let len := p.distance_from_origin
  if FloatLit.lit0 < len then
    let inv_len := FloatLit.lit1 / len
    ⟨p.x * inv_len, p.y * inv_len, p.z * inv_len⟩
  else
    p

/-- The `Mul` operator impl for `Vec3` delegates to `cross`. -/
instance [Add T] [Mul T] [Sub T] : Mul (Vec3 T) := ⟨fun a b => a.cross b⟩

/-- The `Add` operator impl for `Vec3`: componentwise. -/
instance [Add T] : Add (Vec3 T) :=
  ⟨fun a b => ⟨a.x + b.x, a.y + b.y, a.z + b.z⟩⟩

/-- The `Sub` operator impl for `Vec3`: componentwise. -/
instance [Sub T] : Sub (Vec3 T) :=
  ⟨fun a b => ⟨a.x - b.x, a.y - b.y, a.z - b.z⟩⟩

/-- `Index<usize> for Vec3<T>`: indices `0`, `1`, `2` select `x`, `y`, `z`;
any other index panics (`panic!("Out of bound access in Vec3<T>!")`),
modelled as `none`. -/
def Vec3.index (v : Vec3 T) (i : Nat) : Option T :=
  match i with
  | 0 => some v.x
  | 1 => some v.y
  | 2 => some v.z
  | _ => none

/-- `IndexMut<usize> for Vec3<T>`: writing through index `0`, `1`, `2`
replaces `x`, `y`, `z`; any other index panics, modelled as `none`. -/
def Vec3.indexSet (v : Vec3 T) (i : Nat) (val : T) : Option (Vec3 T) :=
  match i with
  | 0 => some ⟨val, v.y, v.z⟩
  | 1 => some ⟨v.x, val, v.z⟩
  | 2 => some ⟨v.x, v.y, val⟩
  | _ => none

/-- `Index<usize> for Point3<T>`: same contract as for `Vec3`. -/
def Point3.index (p : Point3 T) (i : Nat) : Option T :=
  match i with
  | 0 => some p.x
  | 1 => some p.y
  | 2 => some p.z
  | _ => none

/-- `IndexMut<usize> for Point3<T>`: same contract as for `Vec3`. -/
def Point3.indexSet (p : Point3 T) (i : Nat) (val : T) : Option (Point3 T) :=
  match i with
  | 0 => some ⟨val, p.y, p.z⟩
  | 1 => some ⟨p.x, val, p.z⟩
  | 2 => some ⟨p.x, p.y, val⟩
  | _ => none

/-- `Matrix4<T>` from `matrix.rs`: a 4×4 row-major grid (`[[T; 4]; 4]`),
modelled as a function of the row and column index. -/
structure Matrix4 (T : Type) where
  m : Fin 4 → Fin 4 → T

instance [DecidableEq T] : DecidableEq (Matrix4 T) := fun a b =>
  decidable_of_iff (a.m = b.m) (by cases a; cases b; simp)

/-- `Matrix4::new`: 16 scalars in row-major order. -/
def Matrix4.new (e00 e01 e02 e03 e10 e11 e12 e13 e20 e21 e22 e23 e30 e31 e32 e33 : T) :
    Matrix4 T :=
  ⟨fun r c =>
    match r, c with
    | 0, 0 => e00 | 0, 1 => e01 | 0, 2 => e02 | 0, 3 => e03
    | 1, 0 => e10 | 1, 1 => e11 | 1, 2 => e12 | 1, 3 => e13
    | 2, 0 => e20 | 2, 1 => e21 | 2, 2 => e22 | 2, 3 => e23
    | 3, 0 => e30 | 3, 1 => e31 | 3, 2 => e32 | 3, 3 => e33⟩

/-- `Matrix4::zeros`: all 16 entries are the scalar's zero value. -/
def Matrix4.zeros [Zero T] : Matrix4 T := ⟨fun _ _ => 0⟩

/-- `Matrix4::transpose` (in-place in Rust; modelled as a function from
the old value to the new one): builds `tmp = new(self[0][0], self[1][0], ...)`
column by column and assigns it to `self`. -/
def Matrix4.transpose (s : Matrix4 T) : Matrix4 T :=
  Matrix4.new
    (s.m 0 0) (s.m 1 0) (s.m 2 0) (s.m 3 0)
    (s.m 0 1) (s.m 1 1) (s.m 2 1) (s.m 3 1)
    (s.m 0 2) (s.m 1 2) (s.m 2 2) (s.m 3 2)
    (s.m 0 3) (s.m 1 3) (s.m 2 3) (s.m 3 3)

/-- `Matrix4::transposed`: value-producing variant, same 16 entries as
`transpose`. -/
def Matrix4.transposed (s : Matrix4 T) : Matrix4 T :=
  Matrix4.new
    (s.m 0 0) (s.m 1 0) (s.m 2 0) (s.m 3 0)
    (s.m 0 1) (s.m 1 1) (s.m 2 1) (s.m 3 1)
    (s.m 0 2) (s.m 1 2) (s.m 2 2) (s.m 3 2)
    (s.m 0 3) (s.m 1 3) (s.m 2 3) (s.m 3 3)

/-- `multiply(lhs, rhs)` from `matrix.rs`.  The Rust source initialises
`result = zeros()` and then overwrites each of the 16 entries with
`a[0]*b0[j] + a[1]*b1[j] + a[2]*b2[j] + a[3]*b3[j]` where `a = lhs[i]`
and `bk = rhs[k]`; every entry is written, so the result is exactly the
16 expressions below. -/
def multiply [Add T] [Mul T] (lhs rhs : Matrix4 T) : Matrix4 T :=
  let b0 := rhs.m 0
  let b1 := rhs.m 1
  let b2 := rhs.m 2
  let b3 := rhs.m 3
  let a0 := lhs.m 0
  let a1 := lhs.m 1
  let a2 := lhs.m 2
  let a3 := lhs.m 3
  Matrix4.new
    (a0 0 * b0 0 + a0 1 * b1 0 + a0 2 * b2 0 + a0 3 * b3 0)
    (a0 0 * b0 1 + a0 1 * b1 1 + a0 2 * b2 1 + a0 3 * b3 1)
    (a0 0 * b0 2 + a0 1 * b1 2 + a0 2 * b2 2 + a0 3 * b3 2)
    (a0 0 * b0 3 + a0 1 * b1 3 + a0 2 * b2 3 + a0 3 * b3 3)
    (a1 0 * b0 0 + a1 1 * b1 0 + a1 2 * b2 0 + a1 3 * b3 0)
    (a1 0 * b0 1 + a1 1 * b1 1 + a1 2 * b2 1 + a1 3 * b3 1)
    (a1 0 * b0 2 + a1 1 * b1 2 + a1 2 * b2 2 + a1 3 * b3 2)
    (a1 0 * b0 3 + a1 1 * b1 3 + a1 2 * b2 3 + a1 3 * b3 3)
    (a2 0 * b0 0 + a2 1 * b1 0 + a2 2 * b2 0 + a2 3 * b3 0)
    (a2 0 * b0 1 + a2 1 * b1 1 + a2 2 * b2 1 + a2 3 * b3 1)
    (a2 0 * b0 2 + a2 1 * b1 2 + a2 2 * b2 2 + a2 3 * b3 2)
    (a2 0 * b0 3 + a2 1 * b1 3 + a2 2 * b2 3 + a2 3 * b3 3)
    (a3 0 * b0 0 + a3 1 * b1 0 + a3 2 * b2 0 + a3 3 * b3 0)
    (a3 0 * b0 1 + a3 1 * b1 1 + a3 2 * b2 1 + a3 3 * b3 1)
    (a3 0 * b0 2 + a3 1 * b1 2 + a3 2 * b2 2 + a3 3 * b3 2)
    (a3 0 * b0 3 + a3 1 * b1 3 + a3 2 * b2 3 + a3 3 * b3 3)

/-- The `Mul` operator impl for `Matrix4` delegates to `multiply`. -/
instance [Add T] [Mul T] : Mul (Matrix4 T) := ⟨fun a b => multiply a b⟩

/-- `mul_point_matrix(p, m)` from `matrix.rs`: homogeneous transform of a
point by the full 4×4 matrix, with unconditional perspective divide by `w`
(the source has no guard on `w`; `p[0..2]` are `p.x`, `p.y`, `p.z` via the
`Index` impl). -/
def mul_point_matrix [Add T] [Mul T] [Div T] (p : Point3 T) (mat : Matrix4 T) : Point3 T :=
  let x := p.x * mat.m 0 0 + p.y * mat.m 1 0 + p.z * mat.m 2 0 + mat.m 3 0
  let y := p.x * mat.m 0 1 + p.y * mat.m 1 1 + p.z * mat.m 2 1 + mat.m 3 1
  let z := p.x * mat.m 0 2 + p.y * mat.m 1 2 + p.z * mat.m 2 2 + mat.m 3 2
  let w := p.x * mat.m 0 3 + p.y * mat.m 1 3 + p.z * mat.m 2 3 + mat.m 3 3
  Point3.new (x / w) (y / w) (z / w)

/-- `mul_vec_matrix(v, m)` from `matrix.rs`: same linear combination but
omitting the translation row (row 3) and without computing or dividing
by `w`. -/
def mul_vec_matrix [Add T] [Mul T] [Div T] (v : Vec3 T) (mat : Matrix4 T) : Vec3 T :=
  let x := v.x * mat.m 0 0 + v.y * mat.m 1 0 + v.z * mat.m 2 0
  let y := v.x * mat.m 0 1 + v.y * mat.m 1 1 + v.z * mat.m 2 1
  let z := v.x * mat.m 0 2 + v.y * mat.m 1 2 + v.z * mat.m 2 2
  Vec3.new x y z

/-- The 4×4 identity matrix (a test value; the source constructs matrices
only through `new` and `zeros`). -/
def identity4 : Matrix4 ℚ :=
  Matrix4.new 1 0 0 0 0 1 0 0 0 0 1 0 0 0 0 1

/-- Determinant of a 3×3 block given by its nine entries in row-major
order, by cofactor expansion along the first row. -/
def det3 [Add T] [Mul T] [Sub T] (a b c d e f g h i : T) : T :=
  a * (e * i - f * h) - b * (d * i - f * g) + c * (d * h - e * g)

/-- Determinant of a 4×4 matrix by cofactor expansion along the first
row (each `det3` is the minor deleting row 0 and the entry's column). -/
def Matrix4.det [Add T] [Mul T] [Sub T] (s : Matrix4 T) : T :=
  s.m 0 0 * det3 (s.m 1 1) (s.m 1 2) (s.m 1 3)
                 (s.m 2 1) (s.m 2 2) (s.m 2 3)
                 (s.m 3 1) (s.m 3 2) (s.m 3 3)
    - s.m 0 1 * det3 (s.m 1 0) (s.m 1 2) (s.m 1 3)
                     (s.m 2 0) (s.m 2 2) (s.m 2 3)
                     (s.m 3 0) (s.m 3 2) (s.m 3 3)
    + s.m 0 2 * det3 (s.m 1 0) (s.m 1 1) (s.m 1 3)
                     (s.m 2 0) (s.m 2 1) (s.m 2 3)
                     (s.m 3 0) (s.m 3 1) (s.m 3 3)
    - s.m 0 3 * det3 (s.m 1 0) (s.m 1 1) (s.m 1 2)
                     (s.m 2 0) (s.m 2 1) (s.m 2 2)
                     (s.m 3 0) (s.m 3 1) (s.m 3 2)

/-- Modelled from the spec: `Matrix4::inverse` is declared in `matrix.rs`
but its body is only `todo!("Work in progress")` — the implementation is
missing from the source.  The spec requires computing the inverse "via
cofactor expansion or Gauss-Jordan elimination" and failing explicitly
with a "singular matrix" condition "when the determinant is zero or
numerically negligible"; with an exact scalar, numerically negligible
means exactly zero.  This model uses cofactor expansion: entry `[i][j]`
of the inverse is the cofactor `(-1)^(i+j) * minor(j, i)` divided by the
determinant, written out entry by entry (`minor(r, c)` is the `det3` of
the rows other than `r` and the columns other than `c`). -/
def Matrix4.inverse [Add T] [Mul T] [Sub T] [Neg T] [Div T] [Zero T]
    [DecidableEq T] (s : Matrix4 T) : Except String (Matrix4 T) :=
  let d := s.det
  if d = 0 then
    Except.error "singular matrix"
  else
    Except.ok (Matrix4.new
      (det3 (s.m 1 1) (s.m 1 2) (s.m 1 3)
            (s.m 2 1) (s.m 2 2) (s.m 2 3)
            (s.m 3 1) (s.m 3 2) (s.m 3 3) / d)
      (-det3 (s.m 0 1) (s.m 0 2) (s.m 0 3)
             (s.m 2 1) (s.m 2 2) (s.m 2 3)
             (s.m 3 1) (s.m 3 2) (s.m 3 3) / d)
      (det3 (s.m 0 1) (s.m 0 2) (s.m 0 3)
            (s.m 1 1) (s.m 1 2) (s.m 1 3)
            (s.m 3 1) (s.m 3 2) (s.m 3 3) / d)
      (-det3 (s.m 0 1) (s.m 0 2) (s.m 0 3)
             (s.m 1 1) (s.m 1 2) (s.m 1 3)
             (s.m 2 1) (s.m 2 2) (s.m 2 3) / d)
      (-det3 (s.m 1 0) (s.m 1 2) (s.m 1 3)
             (s.m 2 0) (s.m 2 2) (s.m 2 3)
             (s.m 3 0) (s.m 3 2) (s.m 3 3) / d)
      (det3 (s.m 0 0) (s.m 0 2) (s.m 0 3)
            (s.m 2 0) (s.m 2 2) (s.m 2 3)
            (s.m 3 0) (s.m 3 2) (s.m 3 3) / d)
      (-det3 (s.m 0 0) (s.m 0 2) (s.m 0 3)
             (s.m 1 0) (s.m 1 2) (s.m 1 3)
             (s.m 3 0) (s.m 3 2) (s.m 3 3) / d)
      (det3 (s.m 0 0) (s.m 0 2) (s.m 0 3)
            (s.m 1 0) (s.m 1 2) (s.m 1 3)
            (s.m 2 0) (s.m 2 2) (s.m 2 3) / d)
      (det3 (s.m 1 0) (s.m 1 1) (s.m 1 3)
            (s.m 2 0) (s.m 2 1) (s.m 2 3)
            (s.m 3 0) (s.m 3 1) (s.m 3 3) / d)
      (-det3 (s.m 0 0) (s.m 0 1) (s.m 0 3)
             (s.m 2 0) (s.m 2 1) (s.m 2 3)
             (s.m 3 0) (s.m 3 1) (s.m 3 3) / d)
      (det3 (s.m 0 0) (s.m 0 1) (s.m 0 3)
            (s.m 1 0) (s.m 1 1) (s.m 1 3)
            (s.m 3 0) (s.m 3 1) (s.m 3 3) / d)
      (-det3 (s.m 0 0) (s.m 0 1) (s.m 0 3)
             (s.m 1 0) (s.m 1 1) (s.m 1 3)
             (s.m 2 0) (s.m 2 1) (s.m 2 3) / d)
      (-det3 (s.m 1 0) (s.m 1 1) (s.m 1 2)
             (s.m 2 0) (s.m 2 1) (s.m 2 2)
             (s.m 3 0) (s.m 3 1) (s.m 3 2) / d)
      (det3 (s.m 0 0) (s.m 0 1) (s.m 0 2)
            (s.m 2 0) (s.m 2 1) (s.m 2 2)
            (s.m 3 0) (s.m 3 1) (s.m 3 2) / d)
      (-det3 (s.m 0 0) (s.m 0 1) (s.m 0 2)
             (s.m 1 0) (s.m 1 1) (s.m 1 2)
             (s.m 3 0) (s.m 3 1) (s.m 3 2) / d)
      (det3 (s.m 0 0) (s.m 0 1) (s.m 0 2)
            (s.m 1 0) (s.m 1 1) (s.m 1 2)
            (s.m 2 0) (s.m 2 1) (s.m 2 2) / d))

/-- Modelled from the spec: the scalar type `f64` itself is Rust standard
library behaviour, not part of this repository's sources.  `FNum` models
the aspects of IEEE float semantics the claims exercise: finite values
(as exact rationals) plus an absorbing NaN element (`none`).  Arithmetic
propagates NaN; `sqrt` of NaN or of a negative number is NaN; every
ordering comparison involving NaN is `false` (NaN is incomparable);
infinities are outside the modelled range. -/
def FNum : Type := Option ℚ

instance : DecidableEq FNum :=
  inferInstanceAs (DecidableEq (Option ℚ))

/-- NaN. -/
def FNum.nan : FNum := none

instance : Add FNum :=
  ⟨fun a b => match a, b with
    | some q, some r => some (q + r)
    | _, _ => none⟩

instance : Mul FNum :=
  ⟨fun a b => match a, b with
    | some q, some r => some (q * r)
    | _, _ => none⟩

instance : Sub FNum :=
  ⟨fun a b => match a, b with
    | some q, some r => some (q - r)
    | _, _ => none⟩

/-- Division: NaN operands give NaN; division by zero is a float
infinity or NaN, outside the modelled range, collapsed to NaN (the
claims proved about `FNum` never evaluate a division). -/
instance : Div FNum :=
  ⟨fun a b => match a, b with
    | some q, some r => if r = 0 then none else some (q / r)
    | _, _ => none⟩

/-- IEEE comparison: any comparison with NaN is `false`. -/
def FNum.ltb (a b : FNum) : Bool :=
  match a, b with
  | some q, some r => decide (q < r)
  | _, _ => false

instance : LT FNum := ⟨fun a b => FNum.ltb a b = true⟩

instance : DecidableRel (fun a b : FNum => a < b) := fun a b =>
  inferInstanceAs (Decidable (FNum.ltb a b = true))

instance : Sqrt FNum :=
  ⟨fun a => match a with
    | some q => if q < 0 then none else some (Rat.sqrt q)
    | none => none⟩

instance : FloatLit FNum := ⟨some 0, some 1⟩

/-! ## Helper lemmas -/

/-- Evaluate `Vec3.magnitude` at a concrete vector whose squared length
is a perfect square. -/
lemma magnitude_eval (a b c r : ℚ) (h : a * a + b * b + c * c = r * r)
    (hr : 0 ≤ r) : Vec3.magnitude ⟨a, b, c⟩ = r := by
  show Rat.sqrt (a * a + b * b + c * c) = r
  rw [h, Rat.sqrt_eq]
  exact abs_of_nonneg hr

/-- Evaluate `Point3.distance_from_origin` at a concrete point whose
squared distance is a perfect square. -/
lemma distance_eval (a b c r : ℚ) (h : a * a + b * b + c * c = r * r)
    (hr : 0 ≤ r) : Point3.distance_from_origin ⟨a, b, c⟩ = r := by
  show Rat.sqrt (a * a + b * b + c * c) = r
  rw [h, Rat.sqrt_eq]
  exact abs_of_nonneg hr

/-- A 4×4 matrix with two identical rows has determinant zero. -/
lemma det_zero_of_rows_eq (mm : Matrix4 ℚ) (i j : Fin 4) (hne : i ≠ j)
    (h : ∀ k, mm.m i k = mm.m j k) : mm.det = 0 := by
  fin_cases i <;> fin_cases j <;>
    first
      | exact absurd rfl hne
      | (simp only [Fin.zero_eta, Fin.mk_one,
          show (⟨2, by omega⟩ : Fin 4) = 2 from rfl,
          show (⟨3, by omega⟩ : Fin 4) = 3 from rfl] at h
         simp only [Matrix4.det, det3]
         rw [h 0, h 1, h 2, h 3]
         ring)

/-! ## Claims -/

/-- C1: for every vector `v`, `normalize` first computes `magnitude v`;
if the magnitude is greater than zero it scales each of `x`, `y`, `z` in
place by `1/magnitude`, and if the magnitude is exactly `0` it leaves
the vector unchanged (a no-op, not an error); the same holds for
`Point3.normalize` with `distance_from_origin` as the divisor. -/
theorem claim_normalize_zero_guard (v : Vec3 ℚ) (p : Point3 ℚ) :
    (0 < v.magnitude →
      v.normalize =
        ⟨v.x * (1 / v.magnitude), v.y * (1 / v.magnitude), v.z * (1 / v.magnitude)⟩)
    ∧ (v.magnitude = 0 → v.normalize = v)
    ∧ (0 < p.distance_from_origin →
      p.normalize =
        ⟨p.x * (1 / p.distance_from_origin), p.y * (1 / p.distance_from_origin),
          p.z * (1 / p.distance_from_origin)⟩)
    ∧ (p.distance_from_origin = 0 → p.normalize = p) := by
  refine ⟨fun h => ?_, fun h => ?_, fun h => ?_, fun h => ?_⟩
  · rw [Vec3.normalize]
    exact if_pos h
  · rw [Vec3.normalize, h]
    rw [if_neg (show ¬((FloatLit.lit0 : ℚ) < 0) from by
      norm_num [show (FloatLit.lit0 : ℚ) = 0 from rfl])]
  · rw [Point3.normalize]
    exact if_pos h
  · rw [Point3.normalize, h]
    rw [if_neg (show ¬((FloatLit.lit0 : ℚ) < 0) from by
      norm_num [show (FloatLit.lit0 : ℚ) = 0 from rfl])]

/-- Witness for C1 at the vector `(3,0,0)` (magnitude 3), the point
`(0,0,4)` (distance 4) and the zero vector/point. -/
theorem claim_normalize_zero_guard_witness :
    Vec3.normalize (⟨3, 0, 0⟩ : Vec3 ℚ) = ⟨1, 0, 0⟩
    ∧ Vec3.normalize (⟨0, 0, 0⟩ : Vec3 ℚ) = ⟨0, 0, 0⟩
    ∧ Point3.normalize (⟨0, 0, 4⟩ : Point3 ℚ) = ⟨0, 0, 1⟩
    ∧ Point3.normalize (⟨0, 0, 0⟩ : Point3 ℚ) = ⟨0, 0, 0⟩ := by
  have hm : Vec3.magnitude (⟨3, 0, 0⟩ : Vec3 ℚ) = 3 :=
    magnitude_eval 3 0 0 3 (by norm_num) (by norm_num)
  have hm0 : Vec3.magnitude (⟨0, 0, 0⟩ : Vec3 ℚ) = 0 :=
    magnitude_eval 0 0 0 0 (by norm_num) (by norm_num)
  have hd : Point3.distance_from_origin (⟨0, 0, 4⟩ : Point3 ℚ) = 4 :=
    distance_eval 0 0 4 4 (by norm_num) (by norm_num)
  have hd0 : Point3.distance_from_origin (⟨0, 0, 0⟩ : Point3 ℚ) = 0 :=
    distance_eval 0 0 0 0 (by norm_num) (by norm_num)
  refine ⟨?_, ?_, ?_, ?_⟩
  · rw [(claim_normalize_zero_guard ⟨3, 0, 0⟩ ⟨0, 0, 4⟩).1 (by rw [hm]; norm_num), hm]
    norm_num
  · exact (claim_normalize_zero_guard ⟨0, 0, 0⟩ ⟨0, 0, 4⟩).2.1 hm0
  · rw [(claim_normalize_zero_guard ⟨3, 0, 0⟩ ⟨0, 0, 4⟩).2.2.1 (by rw [hd]; norm_num), hd]
    norm_num
  · exact (claim_normalize_zero_guard ⟨3, 0, 0⟩ ⟨0, 0, 0⟩).2.2.2 hd0

/-- C2 (spec-modelled, since `Matrix4::inverse` is `todo!()` in the
source): for every singular 4×4 matrix (determinant zero — e.g. the
all-zeros matrix, or one with two identical rows), `inverse` reports the
distinct "singular matrix" condition rather than returning a result,
while a nonsingular matrix does get a result. -/
theorem claim_inverse_singular (mm : Matrix4 ℚ) (i j : Fin 4) :
    (mm.det = 0 → mm.inverse = Except.error "singular matrix")
    ∧ (mm.det ≠ 0 → ∃ r, mm.inverse = Except.ok r)
    ∧ (i ≠ j → (∀ k, mm.m i k = mm.m j k) →
        mm.det = 0 ∧ mm.inverse = Except.error "singular matrix")
    ∧ ((Matrix4.zeros : Matrix4 ℚ).det = 0
        ∧ (Matrix4.zeros : Matrix4 ℚ).inverse = Except.error "singular matrix") := by
  refine ⟨fun h => ?_, fun h => ?_, fun hne h => ?_, ?_, ?_⟩
  · rw [Matrix4.inverse, if_pos h]
  · rw [Matrix4.inverse, if_neg h]
    exact ⟨_, rfl⟩
  · have hz := det_zero_of_rows_eq mm i j hne h
    exact ⟨hz, by rw [Matrix4.inverse, if_pos hz]⟩
  · norm_num [Matrix4.det, det3, Matrix4.zeros]
  · rw [Matrix4.inverse,
      if_pos (show (Matrix4.zeros : Matrix4 ℚ).det = 0 by
        norm_num [Matrix4.det, det3, Matrix4.zeros])]

/-- Witness for C2 at a concrete matrix with rows 0 and 1 identical. -/
theorem claim_inverse_singular_witness :
    ((0 : Fin 4) ≠ 1)
    ∧ (∀ k, (Matrix4.new (1:ℚ) 2 3 4 1 2 3 4 0 0 1 0 0 0 0 1).m 0 k
        = (Matrix4.new (1:ℚ) 2 3 4 1 2 3 4 0 0 1 0 0 0 0 1).m 1 k)
    ∧ (Matrix4.new (1:ℚ) 2 3 4 1 2 3 4 0 0 1 0 0 0 0 1).det = 0
    ∧ (Matrix4.new (1:ℚ) 2 3 4 1 2 3 4 0 0 1 0 0 0 0 1).inverse
        = Except.error "singular matrix" := by
  have hne : (0 : Fin 4) ≠ 1 := by decide
  have h : ∀ k, (Matrix4.new (1:ℚ) 2 3 4 1 2 3 4 0 0 1 0 0 0 0 1).m 0 k
      = (Matrix4.new (1:ℚ) 2 3 4 1 2 3 4 0 0 1 0 0 0 0 1).m 1 k := by
    intro k
    fin_cases k <;> rfl
  exact ⟨hne, h,
    (claim_inverse_singular (Matrix4.new (1:ℚ) 2 3 4 1 2 3 4 0 0 1 0 0 0 0 1) 0 1).2.2.1 hne h⟩

/-- C3: `multiply` returns the standard row-by-column product —
`result[i][j] = Σ_k lhs[i][k] * rhs[k][j]` — and the `*` operator on
`Matrix4` returns the same value as `multiply`. -/
theorem claim_multiply_rowcol (lhs rhs : Matrix4 ℚ) (i j : Fin 4) :
    (multiply lhs rhs).m i j = ∑ k : Fin 4, lhs.m i k * rhs.m k j
    ∧ lhs * rhs = multiply lhs rhs := by
  refine ⟨?_, rfl⟩
  fin_cases i <;> fin_cases j <;>
    simp [multiply, Matrix4.new, Fin.sum_univ_four]

/-- C4: `cross` returns the right-handed cross product, the `*` operator
on `Vec3` is the cross product (not a componentwise multiply), and on
the concrete inputs `(3.1, 5.0, -2.0)` and `(11.27, -9.0, 0.0)` the
result is `(-18.0, -22.54, -84.25)`. -/
theorem claim_cross_product :
    (∀ a b : Vec3 ℚ,
      a.cross b = ⟨a.y * b.z - a.z * b.y, a.z * b.x - a.x * b.z, a.x * b.y - a.y * b.x⟩
      ∧ a * b = a.cross b)
    ∧ Vec3.cross (⟨3.1, 5.0, -2.0⟩ : Vec3 ℚ) ⟨11.27, -9.0, 0.0⟩
        = ⟨-18.0, -22.54, -84.25⟩ := by
  refine ⟨fun a b => ⟨rfl, rfl⟩, ?_⟩
  norm_num [Vec3.cross, Vec3.new, Vec3.mk.injEq]

/-- C5: `mul_point_matrix` computes the homogeneous linear combinations
`x'`, `y'`, `z'`, `w'` of the point with the matrix columns (the
translation row `m[3]` added in) and returns `(x'/w', y'/w', z'/w')`,
dividing unconditionally — the formula below holds for every input,
including those with `w' = 0`; there is no guard on `w'`. -/
theorem claim_mul_point_matrix_formula (p : Point3 ℚ) (mat : Matrix4 ℚ) :
    mul_point_matrix p mat =
      ⟨(p.x * mat.m 0 0 + p.y * mat.m 1 0 + p.z * mat.m 2 0 + mat.m 3 0) /
          (p.x * mat.m 0 3 + p.y * mat.m 1 3 + p.z * mat.m 2 3 + mat.m 3 3),
        (p.x * mat.m 0 1 + p.y * mat.m 1 1 + p.z * mat.m 2 1 + mat.m 3 1) /
          (p.x * mat.m 0 3 + p.y * mat.m 1 3 + p.z * mat.m 2 3 + mat.m 3 3),
        (p.x * mat.m 0 2 + p.y * mat.m 1 2 + p.z * mat.m 2 2 + mat.m 3 2) /
          (p.x * mat.m 0 3 + p.y * mat.m 1 3 + p.z * mat.m 2 3 + mat.m 3 3)⟩ := rfl

/-- C6: transforming any point or vector by the identity matrix returns
the argument unchanged, exactly (for `mul_point_matrix` the homogeneous
`w'` comes out as `1`). -/
theorem claim_identity_transform (p : Point3 ℚ) (v : Vec3 ℚ) :
    mul_point_matrix p identity4 = p ∧ mul_vec_matrix v identity4 = v := by
  constructor
  · cases p with
    | mk px py pz => simp [mul_point_matrix, identity4, Matrix4.new, Point3.new]
  · cases v with
    | mk vx vy vz => simp [mul_vec_matrix, identity4, Matrix4.new, Vec3.new]

/-- C7: `transposed` (and the in-place `transpose`) swaps entry `[i][j]`
with entry `[j][i]`, and applying it twice restores the original matrix
exactly, for matrices over any entry type. -/
theorem claim_transpose_involution (T : Type) (mm : Matrix4 T) (i j : Fin 4) :
    mm.transposed.m i j = mm.m j i
    ∧ mm.transpose.m i j = mm.m j i
    ∧ mm.transposed.transposed = mm
    ∧ mm.transpose.transpose = mm := by
  have hswap : ∀ s : Matrix4 T, ∀ a b : Fin 4, s.transposed.m a b = s.m b a := by
    intro s a b
    fin_cases a <;> fin_cases b <;> rfl
  have hdouble : ∀ s : Matrix4 T, s.transposed.transposed = s := by
    intro s
    cases s with
    | mk f =>
      simp only [Matrix4.transposed, Matrix4.new]
      congr 1
      funext a b
      fin_cases a <;> fin_cases b <;> rfl
  exact ⟨hswap mm i j, hswap mm i j, hdouble mm, hdouble mm⟩

/-- C8: `dot` returns `a.x*b.x + a.y*b.y + a.z*b.z` and is commutative. -/
theorem claim_dot_comm (a b : Vec3 ℚ) :
    Vec3.dot a b = a.x * b.x + a.y * b.y + a.z * b.z
    ∧ Vec3.dot a b = Vec3.dot b a := by
  refine ⟨rfl, ?_⟩
  simp only [Vec3.dot]
  ring

/-- C9: indexed read and write on `Vec3` and `Point3` with index 0, 1,
or 2 accesses the `x`, `y`, `z` component respectively, and any index
outside `{0,1,2}` panics (modelled as `none`) — never a clamped,
wrapped, or recoverable result. -/
theorem claim_index_contract (T : Type) (v : Vec3 T) (p : Point3 T) (w : T) (i : Nat) :
    (v.index 0 = some v.x ∧ v.index 1 = some v.y ∧ v.index 2 = some v.z)
    ∧ (v.indexSet 0 w = some ⟨w, v.y, v.z⟩ ∧ v.indexSet 1 w = some ⟨v.x, w, v.z⟩
        ∧ v.indexSet 2 w = some ⟨v.x, v.y, w⟩)
    ∧ (p.index 0 = some p.x ∧ p.index 1 = some p.y ∧ p.index 2 = some p.z)
    ∧ (p.indexSet 0 w = some ⟨w, p.y, p.z⟩ ∧ p.indexSet 1 w = some ⟨p.x, w, p.z⟩
        ∧ p.indexSet 2 w = some ⟨p.x, p.y, w⟩)
    ∧ (3 ≤ i → v.index i = none ∧ v.indexSet i w = none
        ∧ p.index i = none ∧ p.indexSet i w = none) := by
  refine ⟨⟨rfl, rfl, rfl⟩, ⟨rfl, rfl, rfl⟩, ⟨rfl, rfl, rfl⟩, ⟨rfl, rfl, rfl⟩, fun hi => ?_⟩
  obtain ⟨k, rfl⟩ : ∃ k, i = k + 3 := ⟨i - 3, by omega⟩
  exact ⟨rfl, rfl, rfl, rfl⟩

/-- Witness for C9: out-of-range index 7 on concrete values. -/
theorem claim_index_contract_witness :
    3 ≤ 7
    ∧ Vec3.index (⟨1, 2, 3⟩ : Vec3 ℚ) 7 = none
    ∧ Vec3.indexSet (⟨1, 2, 3⟩ : Vec3 ℚ) 7 9 = none
    ∧ Point3.index (⟨4, 5, 6⟩ : Point3 ℚ) 7 = none
    ∧ Point3.indexSet (⟨4, 5, 6⟩ : Point3 ℚ) 7 9 = none := by
  have h := (claim_index_contract ℚ ⟨1, 2, 3⟩ ⟨4, 5, 6⟩ 9 7).2.2.2.2 (by norm_num)
  exact ⟨by norm_num, h.1, h.2.1, h.2.2.1, h.2.2.2⟩

/-- C10: over the NaN-carrying scalar model `FNum`, a vector (or point)
with a NaN component has NaN magnitude, and `normalize` of a vector
whose magnitude is NaN leaves it completely unchanged, because the guard
`len > 0` is false for NaN. -/
theorem claim_normalize_nan_noop (v : Vec3 FNum) (p : Point3 FNum) :
    ((v.x = FNum.nan ∨ v.y = FNum.nan ∨ v.z = FNum.nan) → v.magnitude = FNum.nan)
    ∧ (v.magnitude = FNum.nan → v.normalize = v)
    ∧ ((p.x = FNum.nan ∨ p.y = FNum.nan ∨ p.z = FNum.nan) →
        p.distance_from_origin = FNum.nan)
    ∧ (p.distance_from_origin = FNum.nan → p.normalize = p) := by
  refine ⟨fun h => ?_, fun h => ?_, fun h => ?_, fun h => ?_⟩
  · obtain ⟨x, y, z⟩ := v
    rcases h with h | h | h
    · subst h; rfl
    · subst h; cases x <;> rfl
    · subst h; cases x <;> cases y <;> rfl
  · rw [Vec3.normalize, h]
    rfl
  · obtain ⟨x, y, z⟩ := p
    rcases h with h | h | h
    · subst h; rfl
    · subst h; cases x <;> rfl
    · subst h; cases x <;> cases y <;> rfl
  · rw [Point3.normalize, h]
    rfl

/-- Witness for C10 at a vector and a point with one NaN component. -/
theorem claim_normalize_nan_noop_witness :
    Vec3.magnitude (⟨FNum.nan, some 1, some 2⟩ : Vec3 FNum) = FNum.nan
    ∧ Vec3.normalize (⟨FNum.nan, some 1, some 2⟩ : Vec3 FNum) = ⟨FNum.nan, some 1, some 2⟩
    ∧ Point3.distance_from_origin (⟨some 1, FNum.nan, some 2⟩ : Point3 FNum) = FNum.nan
    ∧ Point3.normalize (⟨some 1, FNum.nan, some 2⟩ : Point3 FNum)
        = ⟨some 1, FNum.nan, some 2⟩ := by
  have h := claim_normalize_nan_noop ⟨FNum.nan, some 1, some 2⟩ ⟨some 1, FNum.nan, some 2⟩
  exact ⟨h.1 (Or.inl rfl), h.2.1 (h.1 (Or.inl rfl)),
    h.2.2.1 (Or.inr (Or.inl rfl)), h.2.2.2 (h.2.2.1 (Or.inr (Or.inl rfl)))⟩

end Mafs
